import Mathlib

/-!
Shallow embedding of the gcp-proxy-mity storage service.

The definitions mirror the Go sources:
* `internal/storage` data model (`storage.go`) and the GCS-backed
  orchestrator (`GCSStorage.WriteFiles`, `GCSStorage.ReadFiles`,
  `GCSStorage.ReadFile`, `readSingleFile`, `getExtension`);
* `internal/handler` (`StorageHandler` methods, `detectContentType`,
  `SetupRoutes` routing);
* `pkg/storage/gcs` (`NewClient`).

The GCS backend itself is modelled as a key-addressed object store
(`Store`, mapping a path to its content bytes and content type) together
with an environment `GCSEnv` of injectable per-path failures for each
network call the orchestrator makes (copy, close, attrs, new-reader,
read-all) and the system extension-to-MIME registry used by
`mime.TypeByExtension`.
-/

namespace GcpProxy

/-- Mirrors `storage.FileMetadata`: name, content type and size (int64 in Go). -/
structure FileMetadata where
  Name : String
  ContentType : String
  Size : Int
deriving DecidableEq, Repr

/-- Mirrors `storage.WriteRequest`: the content stream is modelled by the byte
sequence it yields. -/
structure WriteRequest where
  Path : String
  Content : List Nat
  ContentType : String
deriving DecidableEq, Repr

/-- Mirrors `storage.WriteError`. -/
structure WriteError where
  FilePath : String
  Error : String
deriving DecidableEq, Repr

/-- Mirrors `storage.WriteResponse`. -/
structure WriteResponse where
  FilesWritten : List FileMetadata
  Errors : List WriteError
deriving DecidableEq, Repr

/-- Mirrors `storage.FileData`. -/
structure FileData where
  Metadata : FileMetadata
  Content : List Nat
deriving DecidableEq, Repr

/-- Mirrors `storage.ReadError`. -/
structure ReadError where
  FilePath : String
  Error : String
deriving DecidableEq, Repr

/-- Mirrors `storage.ReadResponse`. -/
structure ReadResponse where
  Files : List FileData
  Errors : List ReadError
deriving DecidableEq, Repr

/-- The GCS bucket contents: each object path maps to its stored bytes and
content type. -/
abbrev Store := String → Option (List Nat × String)

/-- Environment of the GCS backend: injectable failures for each network
call the orchestrator makes, keyed by object path, plus the system
extension-to-MIME registry backing `mime.TypeByExtension` (which returns
the empty string for an unknown extension). -/
structure GCSEnv where
  copyFail : String → Option String
  closeFail : String → Option String
  attrsFail : String → Option String
  readerFail : String → Option String
  readAllFail : String → Option String
  typeByExtension : String → String

/-- Scan of getExtension, over the reversed character list: walking from
the end of the path, a dot yields the suffix from that dot, a slash (or
running off the front) yields the empty string. -/
def getExtensionAux : List Char → List Char → String
  | [], _ => ""
  | c :: rest, acc =>
    if c = '.' then String.mk ('.' :: acc)
    else if c = '/' then ""
    else getExtensionAux rest (c :: acc)

/-- Mirrors `getExtension` from the storage source: suffix of `path` from its last
dot, scanning right to left and stopping at a slash. (This is also the
algorithm of the Go function filepath.Ext with a slash separator, used by
the handler function `detectContentType`.) -/
def getExtension (path : String) : String :=
  getExtensionAux path.data.reverse []

/-- Models the `obj.Attrs(ctx)` call: fails when a failure is injected for the path, or
when the object does not exist; otherwise returns the stored content type
and size. -/
def objAttrs (env : GCSEnv) (store : Store) (path : String) :
    Except String (String × Int) :=
  match env.attrsFail path with
  | some msg => Except.error msg
  | none =>
    match store path with
    | none => Except.error "storage: object does not exist"
    | some (content, ct) => Except.ok (ct, (content.length : Int))

/-- The content type set on the GCS writer in `GCSStorage.WriteFiles`:
the request's content type when non-empty, otherwise
`mime.TypeByExtension(getExtension(path))`. -/
def effectiveWriterContentType (env : GCSEnv) (req : WriteRequest) : String :=
  if req.ContentType ≠ "" then req.ContentType
  else env.typeByExtension (getExtension req.Path)

/-- Outcome of one iteration of the `WriteFiles` loop. -/
inductive WriteOutcome where
  | success (m : FileMetadata)
  | failure (e : WriteError)
deriving DecidableEq, Repr

/-- One iteration of the loop body of `GCSStorage.WriteFiles`: open a
writer with the effective content type, copy the content (on failure the
writer is closed and the upload aborted), close the writer (committing the
object on success), then fetch the attributes of the object; any failure yields
a `WriteError` for the path, full success yields a `FileMetadata` whose
size is the number of bytes the copy transferred. -/
def writeOne (env : GCSEnv) (store : Store) (req : WriteRequest) :
    Store × WriteOutcome :=
  match env.copyFail req.Path with
  | some msg => (store, WriteOutcome.failure ⟨req.Path, msg⟩)
  | none =>
    let written : Int := (req.Content.length : Int)
    match env.closeFail req.Path with
    | some msg => (store, WriteOutcome.failure ⟨req.Path, msg⟩)
    | none =>
      let ct := effectiveWriterContentType env req
      let store' : Store :=
        fun q => if q = req.Path then some (req.Content, ct) else store q
      match objAttrs env store' req.Path with
      | Except.error msg =>
          (store', WriteOutcome.failure
            ⟨req.Path, "failed to get file attributes: " ++ msg⟩)
      | Except.ok (attrsCT, _) =>
          (store', WriteOutcome.success ⟨req.Path, attrsCT, written⟩)

/-- Mirrors the write loop (`for _, req := range requests`) of `GCSStorage.WriteFiles`,
appending the outcome of each item to the accumulated response. -/
def writeFilesLoop (env : GCSEnv) :
    Store → List WriteRequest → WriteResponse → Store × WriteResponse
  | store, [], resp => (store, resp)
  | store, req :: rest, resp =>
    match writeOne env store req with
    | (st', WriteOutcome.success m) =>
        writeFilesLoop env st' rest ⟨resp.FilesWritten ++ [m], resp.Errors⟩
    | (st', WriteOutcome.failure e) =>
        writeFilesLoop env st' rest ⟨resp.FilesWritten, resp.Errors ++ [e]⟩

/-- Mirrors `GCSStorage.WriteFiles`: starts from empty success and error lists,
runs the loop, and returns `(response, nil)` — the trailing
`Option String` is the own error return of the Go function, always
`none`. -/
def WriteFiles (env : GCSEnv) (store : Store) (requests : List WriteRequest) :
    Store × WriteResponse × Option String :=
  ((writeFilesLoop env store requests ⟨[], []⟩).1,
   (writeFilesLoop env store requests ⟨[], []⟩).2, none)

/-- The stored bytes of an object (used by the read path once the
attributes fetch has confirmed the object exists). -/
def storedContent (store : Store) (path : String) : List Nat :=
  match store path with
  | some (content, _) => content
  | none => []

/-- Mirrors `GCSStorage.readSingleFile`: fetch attributes, open a reader, read the
whole content; each failure is wrapped with the corresponding message
prefix from the Go source. -/
def readSingleFile (env : GCSEnv) (store : Store) (filePath : String) :
    Except String FileData :=
  match objAttrs env store filePath with
  | Except.error msg =>
      Except.error ("failed to get object attributes: " ++ msg)
  | Except.ok (ct, size) =>
    match env.readerFail filePath with
    | some msg => Except.error ("failed to create reader: " ++ msg)
    | none =>
      match env.readAllFail filePath with
      | some msg => Except.error ("failed to read content: " ++ msg)
      | none => Except.ok ⟨⟨filePath, ct, size⟩, storedContent store filePath⟩

/-- Mirrors the read loop (`for _, filePath := range filePaths`) of
`GCSStorage.ReadFiles`. -/
def readFilesLoop (env : GCSEnv) (store : Store) :
    List String → ReadResponse → ReadResponse
  | [], resp => resp
  | p :: rest, resp =>
    match readSingleFile env store p with
    | Except.error msg =>
        readFilesLoop env store rest ⟨resp.Files, resp.Errors ++ [⟨p, msg⟩]⟩
    | Except.ok fd =>
        readFilesLoop env store rest ⟨resp.Files ++ [fd], resp.Errors⟩

/-- Mirrors `GCSStorage.ReadFiles`: like `WriteFiles`, always returns
`(response, nil)`. -/
def ReadFiles (env : GCSEnv) (store : Store) (filePaths : List String) :
    ReadResponse × Option String :=
  (readFilesLoop env store filePaths ⟨[], []⟩, none)

/-- Mirrors `GCSStorage.ReadFile`: the single-path variant reuses
`readSingleFile` and surfaces its failure directly. -/
def ReadFile (env : GCSEnv) (store : Store) (filePath : String) :
    Except String FileData :=
  readSingleFile env store filePath

/-! ### Handler layer (`internal/handler`) -/

/-- HTTP methods used by the handlers. -/
inductive Method where
  | GET
  | POST
  | PUT
  | DELETE
deriving DecidableEq, Repr

/-- What a handler does with a request, up to the point where it either
rejects it or hands work to the storage layer. The `call*` constructors
are the only store accesses. -/
inductive HttpAction where
  | respondError (status : Nat) (msg : String)
  | callWriteFiles (reqs : List WriteRequest)
  | callReadFiles (paths : List String)
  | callReadFile (path : String)
deriving DecidableEq, Repr

/-- Whether an action reaches the storage layer. -/
def HttpAction.accessesStore : HttpAction → Prop
  | respondError _ _ => False
  | callWriteFiles _ => True
  | callReadFiles _ => True
  | callReadFile _ => True

/-- An inbound HTTP request as the handlers see it. The multipart form
and the JSON body arrive already parsed (parsing is external); a parse
failure is the `Except.error` case. -/
structure HttpReq where
  method : Method
  urlPath : String
  contentTypeHeader : String
  xFilePathHeader : String
  queryPath : String
  body : List Nat
  jsonFilePaths : Except String (List String)
  multipartForm : Except String (List WriteRequest)

/-- The URL prefix the file handlers strip, `/api/v1/storage/files/`. -/
def filesBasePath : String := "/api/v1/storage/files/"

/-- ASCII lowercasing of one character (the behavior of the Go function
`strings.ToLower` on the ASCII extensions this service inspects). -/
def charToLower (c : Char) : Char :=
  if 65 ≤ c.toNat ∧ c.toNat ≤ 90 then Char.ofNat (c.toNat + 32) else c

/-- Models `strings.ToLower` on the ASCII strings this service inspects. -/
def strToLower (s : String) : String :=
  String.mk (s.data.map charToLower)

/-- Character-list prefix test backing `strings.HasPrefix`. -/
def listLeads : List Char → List Char → Bool
  | [], _ => true
  | _ :: _, [] => false
  | c :: cs, d :: ds => if c = d then listLeads cs ds else false

/-- Models `strings.HasPrefix`. -/
def strStartsWith (s p : String) : Bool :=
  listLeads p.data s.data

/-- Models `strings.TrimPrefix`: drop the prefix when present, otherwise return
the string unchanged (the prefixes involved are ASCII, so dropping
`len(prefix)` bytes is dropping that many characters). -/
def trimPrefixStr (s p : String) : String :=
  if strStartsWith s p then String.mk (s.data.drop p.data.length) else s

/-- Association lookup in a literal table (Go map indexing). -/
def lookupTable : List (String × String) → String → Option String
  | [], _ => none
  | (k, v) :: rest, key => if key = k then some v else lookupTable rest key

/-- The static media extension-to-MIME table in
`handler.detectContentType`. -/
def mediaTypes : List (String × String) :=
  [(".mp4", "video/mp4"),
   (".m4v", "video/mp4"),
   (".mov", "video/quicktime"),
   (".avi", "video/x-msvideo"),
   (".webm", "video/webm"),
   (".heim", "image/heic"),
   (".heic", "image/heic"),
   (".heif", "image/heif"),
   (".jpg", "image/jpeg"),
   (".jpeg", "image/jpeg"),
   (".png", "image/png"),
   (".gif", "image/gif"),
   (".webp", "image/webp"),
   (".bmp", "image/bmp")]

/-- Mirrors `handler.detectContentType`: lowercased `filepath.Ext` of the path
(the same right-to-left scan as `getExtension`), looked up first in the
static media table, then in the system registry, defaulting to
`application/octet-stream`. -/
def detectContentType (sysMime : String → String) (filePath : String) :
    String :=
  match lookupTable mediaTypes (strToLower (getExtension filePath)) with
  | some mimeType => mimeType
  | none =>
    if sysMime (strToLower (getExtension filePath)) ≠ "" then
      sysMime (strToLower (getExtension filePath))
    else "application/octet-stream"

/-- The built-in Go mime table (`builtinTypesLower`), the value of
`mime.TypeByExtension` when no system table adds entries. -/
def goBuiltinTypeByExtension (ext : String) : String :=
  match lookupTable [(".avif", "image/avif"),
          (".css", "text/css; charset=utf-8"),
          (".gif", "image/gif"),
          (".htm", "text/html; charset=utf-8"),
          (".html", "text/html; charset=utf-8"),
          (".jpeg", "image/jpeg"),
          (".jpg", "image/jpeg"),
          (".js", "text/javascript; charset=utf-8"),
          (".json", "application/json"),
          (".mjs", "text/javascript; charset=utf-8"),
          (".pdf", "application/pdf"),
          (".png", "image/png"),
          (".svg", "image/svg+xml"),
          (".wasm", "application/wasm"),
          (".webp", "image/webp"),
          (".xml", "text/xml; charset=utf-8")] ext with
  | some t => t
  | none => ""

/-- Mirrors `StorageHandler.WriteFiles` (multipart upload): reject non-POST, a
form parse failure, and an empty request list, otherwise call the storage
layer with one request per file part. -/
def writeFilesHandlerAction (method : Method)
    (form : Except String (List WriteRequest)) : HttpAction :=
  if method ≠ Method.POST then
    HttpAction.respondError 405 "Method not allowed"
  else
    match form with
    | Except.error e =>
        HttpAction.respondError 400 ("Failed to parse multipart form: " ++ e)
    | Except.ok reqs =>
      if reqs.length = 0 then
        HttpAction.respondError 400 "No files provided"
      else HttpAction.callWriteFiles reqs

/-- Mirrors `StorageHandler.ReadFiles`: reject non-POST, a JSON parse failure and
an empty `file_paths` list, otherwise call the storage layer. -/
def readFilesAction (method : Method)
    (jsonFilePaths : Except String (List String)) : HttpAction :=
  if method ≠ Method.POST then
    HttpAction.respondError 405 "Method not allowed"
  else
    match jsonFilePaths with
    | Except.error e =>
        HttpAction.respondError 400 ("Invalid request body: " ++ e)
    | Except.ok paths =>
      if paths.length = 0 then
        HttpAction.respondError 400 "No file paths provided"
      else HttpAction.callReadFiles paths

/-- Mirrors `StorageHandler.ReadFile`: reject non-GET, a path without the prefix
and an empty path, otherwise read the single file. -/
def readFileAction (method : Method) (urlPath : String) : HttpAction :=
  if method ≠ Method.GET then
    HttpAction.respondError 405 "Method not allowed"
  else if ¬ strStartsWith urlPath filesBasePath then
    HttpAction.respondError 400 "Invalid file path"
  else if trimPrefixStr urlPath filesBasePath = "" then
    HttpAction.respondError 400 "File path is required"
  else HttpAction.callReadFile (trimPrefixStr urlPath filesBasePath)

/-- Mirrors `StorageHandler.WriteFileRaw`: reject non-PUT, a path without the
prefix, and the reserved or empty path segments; otherwise build one
`WriteRequest` whose content type is the `Content-Type` header or, when
that is empty, `detectContentType` of the path. -/
def writeFileRawAction (method : Method) (urlPath : String)
    (contentTypeHeader : String) (body : List Nat)
    (sysMime : String → String) : HttpAction :=
  if method ≠ Method.PUT then
    HttpAction.respondError 405 "Method not allowed"
  else if ¬ strStartsWith urlPath filesBasePath then
    HttpAction.respondError 400 "Invalid file path"
  else if trimPrefixStr urlPath filesBasePath = ""
      ∨ trimPrefixStr urlPath filesBasePath = "read"
      ∨ trimPrefixStr urlPath filesBasePath = "raw" then
    HttpAction.respondError 400 "Invalid file path"
  else
    HttpAction.callWriteFiles
      [⟨trimPrefixStr urlPath filesBasePath, body,
        if contentTypeHeader ≠ "" then contentTypeHeader
        else detectContentType sysMime (trimPrefixStr urlPath filesBasePath)⟩]

/-- Mirrors `StorageHandler.WriteFileRawFromBody`: path from the `X-File-Path`
header (query parameter `path` as fallback), otherwise like the PUT
variant. -/
def writeFileRawFromBodyAction (method : Method)
    (xFilePathHeader queryPath contentTypeHeader : String)
    (body : List Nat) (sysMime : String → String) : HttpAction :=
  if method ≠ Method.POST then
    HttpAction.respondError 405 "Method not allowed"
  else
    if (if xFilePathHeader = "" then queryPath else xFilePathHeader) = "" then
      HttpAction.respondError 400
        "File path required in X-File-Path header or \x27path\x27 query parameter"
    else
      HttpAction.callWriteFiles
        [⟨(if xFilePathHeader = "" then queryPath else xFilePathHeader), body,
          if contentTypeHeader ≠ "" then contentTypeHeader
          else detectContentType sysMime
            (if xFilePathHeader = "" then queryPath else xFilePathHeader)⟩]

/-- The closure registered for the subtree pattern
`/api/v1/storage/files/` in `SetupRoutes`: reserved segments `read` and
`raw` dispatch to the batch-read and raw-body handlers on POST; otherwise
PUT writes, GET reads, anything else is 405. -/
def dispatchFilesSlash (sysMime : String → String) (r : HttpReq) :
    HttpAction :=
  if trimPrefixStr r.urlPath filesBasePath = "read" ∧ r.method = Method.POST
  then readFilesAction r.method r.jsonFilePaths
  else if trimPrefixStr r.urlPath filesBasePath = "raw"
      ∧ r.method = Method.POST
  then writeFileRawFromBodyAction r.method r.xFilePathHeader r.queryPath
        r.contentTypeHeader r.body sysMime
  else if r.method = Method.PUT then
    writeFileRawAction r.method r.urlPath r.contentTypeHeader r.body sysMime
  else if r.method = Method.GET then
    readFileAction r.method r.urlPath
  else HttpAction.respondError 405 "Method not allowed"

/-- Models the `http.ServeMux` dispatch over the patterns registered in
`SetupRoutes`: the exact patterns `/api/v1/storage/files`,
`/api/v1/storage/files/raw` and `/api/v1/storage/files/read` take
precedence over the subtree pattern `/api/v1/storage/files/`. -/
def muxDispatch (sysMime : String → String) (r : HttpReq) : HttpAction :=
  if r.urlPath = "/api/v1/storage/files" then
    (if r.method = Method.POST then
      (if strStartsWith r.contentTypeHeader "multipart/form-data" then
        writeFilesHandlerAction r.method r.multipartForm
      else writeFileRawFromBodyAction r.method r.xFilePathHeader r.queryPath
            r.contentTypeHeader r.body sysMime)
    else HttpAction.respondError 405 "Method not allowed")
  else if r.urlPath = "/api/v1/storage/files/raw" then
    writeFileRawFromBodyAction r.method r.xFilePathHeader r.queryPath
      r.contentTypeHeader r.body sysMime
  else if r.urlPath = "/api/v1/storage/files/read" then
    readFilesAction r.method r.jsonFilePaths
  else if strStartsWith r.urlPath filesBasePath then
    dispatchFilesSlash sysMime r
  else HttpAction.respondError 404 "404 page not found"

/-! ### GCS client construction (`pkg/storage/gcs/client.go`) -/

/-- The observable state of a constructed `gcs.Client`: the credential
options passed to `storage.NewClient` and the bucket name the client
addresses. -/
structure GCSClientModel where
  credentialOpts : List String
  bucketName : String
deriving DecidableEq, Repr

/-- Mirrors `gcs.NewClient`: builds the option list from the credentials value
(when non-empty) and wraps the `storage.NewClient` result with the bucket
name. `storage.NewClient` is external and modelled by the parameter
`storageNewClient` (which sees only the option list). The `projectID`
argument is accepted but never used by the source. -/
def NewClient (storageNewClient : List String → Except String Unit)
    (projectID bucketName credentialsPath : String) :
    Except String GCSClientModel :=
  match storageNewClient
      (if credentialsPath ≠ "" then [credentialsPath] else []) with
  | Except.error e => Except.error e
  | Except.ok _ =>
      Except.ok ⟨if credentialsPath ≠ "" then [credentialsPath] else [],
        bucketName⟩

/-! ### Helper lemmas about the orchestrator loops -/

/-- The path an outcome is recorded under. -/
def outcomePath : WriteOutcome → String
  | WriteOutcome.success m => m.Name
  | WriteOutcome.failure e => e.FilePath

theorem writeOne_outcomePath (env : GCSEnv) (st : Store) (req : WriteRequest) :
    outcomePath (writeOne env st req).2 = req.Path := by
  simp only [writeOne]
  split
  · rfl
  · split
    · rfl
    · split
      · rfl
      · rfl

theorem writeLoop_acc (env : GCSEnv) :
    ∀ (reqs : List WriteRequest) (st : Store) (fs : List FileMetadata)
      (es : List WriteError),
    writeFilesLoop env st reqs ⟨fs, es⟩ =
      ((writeFilesLoop env st reqs ⟨[], []⟩).1,
       ⟨fs ++ (writeFilesLoop env st reqs ⟨[], []⟩).2.FilesWritten,
        es ++ (writeFilesLoop env st reqs ⟨[], []⟩).2.Errors⟩) := by
  intro reqs
  induction reqs with
  | nil => intro st fs es; simp [writeFilesLoop]
  | cons req rest ih =>
    intro st fs es
    rcases hw : writeOne env st req with ⟨st', out⟩
    cases out with
    | success m =>
      simp only [writeFilesLoop, hw, List.nil_append]
      rw [ih st' (fs ++ [m]) es, ih st' [m] []]
      simp [List.append_assoc]
    | failure e =>
      simp only [writeFilesLoop, hw, List.nil_append]
      rw [ih st' fs (es ++ [e]), ih st' [] [e]]
      simp [List.append_assoc]

theorem write_partition (env : GCSEnv) :
    ∀ (reqs : List WriteRequest) (st : Store),
    List.Perm
      (((writeFilesLoop env st reqs ⟨[], []⟩).2.FilesWritten.map
          FileMetadata.Name)
        ++ ((writeFilesLoop env st reqs ⟨[], []⟩).2.Errors.map
          WriteError.FilePath))
      (reqs.map WriteRequest.Path) := by
  intro reqs
  induction reqs with
  | nil => intro st; simp [writeFilesLoop]
  | cons req rest ih =>
    intro st
    have hpath := writeOne_outcomePath env st req
    rcases hw : writeOne env st req with ⟨st', out⟩
    rw [hw] at hpath
    cases out with
    | success m =>
      simp only [outcomePath] at hpath
      simp only [writeFilesLoop, hw, List.nil_append]
      rw [writeLoop_acc env rest st' [m] []]
      simp only [List.map_append, List.map_cons, List.map_nil,
        List.singleton_append, List.cons_append, List.nil_append]
      rw [hpath]
      exact List.Perm.cons req.Path (ih st')
    | failure e =>
      simp only [outcomePath] at hpath
      simp only [writeFilesLoop, hw, List.nil_append]
      rw [writeLoop_acc env rest st' [] [e]]
      simp only [List.map_append, List.map_cons, List.map_nil,
        List.singleton_append, List.cons_append, List.nil_append]
      rw [hpath]
      exact List.perm_middle.trans (List.Perm.cons req.Path (ih st'))

theorem write_sublists (env : GCSEnv) :
    ∀ (reqs : List WriteRequest) (st : Store),
    ((writeFilesLoop env st reqs ⟨[], []⟩).2.FilesWritten.map
        FileMetadata.Name).Sublist (reqs.map WriteRequest.Path)
    ∧ ((writeFilesLoop env st reqs ⟨[], []⟩).2.Errors.map
        WriteError.FilePath).Sublist (reqs.map WriteRequest.Path) := by
  intro reqs
  induction reqs with
  | nil => intro st; simp [writeFilesLoop]
  | cons req rest ih =>
    intro st
    have hpath := writeOne_outcomePath env st req
    rcases hw : writeOne env st req with ⟨st', out⟩
    rw [hw] at hpath
    cases out with
    | success m =>
      simp only [outcomePath] at hpath
      simp only [writeFilesLoop, hw, List.nil_append]
      rw [writeLoop_acc env rest st' [m] []]
      simp only [List.map_append, List.map_cons, List.map_nil,
        List.singleton_append, List.cons_append, List.nil_append]
      rw [hpath]
      exact ⟨List.Sublist.cons₂ req.Path (ih st').1,
        List.Sublist.cons req.Path (ih st').2⟩
    | failure e =>
      simp only [outcomePath] at hpath
      simp only [writeFilesLoop, hw, List.nil_append]
      rw [writeLoop_acc env rest st' [] [e]]
      simp only [List.map_append, List.map_cons, List.map_nil,
        List.singleton_append, List.cons_append, List.nil_append]
      rw [hpath]
      exact ⟨List.Sublist.cons req.Path (ih st').1,
        List.Sublist.cons₂ req.Path (ih st').2⟩

theorem readSingleFile_ok_name (env : GCSEnv) (st : Store) (p : String) :
    ∀ fd, readSingleFile env st p = Except.ok fd → fd.Metadata.Name = p := by
  intro fd h
  simp only [readSingleFile] at h
  split at h
  · cases h
  · split at h
    · cases h
    · split at h
      · cases h
      · injection h with h
        subst h
        rfl

theorem readLoop_acc (env : GCSEnv) (st : Store) :
    ∀ (paths : List String) (fs : List FileData) (es : List ReadError),
    readFilesLoop env st paths ⟨fs, es⟩ =
      ⟨fs ++ (readFilesLoop env st paths ⟨[], []⟩).Files,
       es ++ (readFilesLoop env st paths ⟨[], []⟩).Errors⟩ := by
  intro paths
  induction paths with
  | nil => intro fs es; simp [readFilesLoop]
  | cons p rest ih =>
    intro fs es
    cases hr : readSingleFile env st p with
    | error msg =>
      simp only [readFilesLoop, hr, List.nil_append]
      rw [ih fs (es ++ [ReadError.mk p msg]), ih [] [ReadError.mk p msg]]
      simp [List.append_assoc]
    | ok fd =>
      simp only [readFilesLoop, hr, List.nil_append]
      rw [ih (fs ++ [fd]) es, ih [fd] []]
      simp [List.append_assoc]

theorem read_partition (env : GCSEnv) (st : Store) :
    ∀ (paths : List String),
    List.Perm
      (((readFilesLoop env st paths ⟨[], []⟩).Files.map
          (fun fd => fd.Metadata.Name))
        ++ ((readFilesLoop env st paths ⟨[], []⟩).Errors.map
          ReadError.FilePath))
      paths := by
  intro paths
  induction paths with
  | nil => simp [readFilesLoop]
  | cons p rest ih =>
    cases hr : readSingleFile env st p with
    | error msg =>
      simp only [readFilesLoop, hr, List.nil_append]
      rw [readLoop_acc env st rest [] [ReadError.mk p msg]]
      simp only [List.map_append, List.map_cons, List.map_nil,
        List.singleton_append, List.cons_append, List.nil_append]
      exact List.perm_middle.trans (List.Perm.cons p ih)
    | ok fd =>
      have hname := readSingleFile_ok_name env st p fd hr
      simp only [readFilesLoop, hr, List.nil_append]
      rw [readLoop_acc env st rest [fd] []]
      simp only [List.map_append, List.map_cons, List.map_nil,
        List.singleton_append, List.cons_append, List.nil_append]
      rw [hname]
      exact List.Perm.cons p ih

theorem read_sublists (env : GCSEnv) (st : Store) :
    ∀ (paths : List String),
    ((readFilesLoop env st paths ⟨[], []⟩).Files.map
        (fun fd => fd.Metadata.Name)).Sublist paths
    ∧ ((readFilesLoop env st paths ⟨[], []⟩).Errors.map
        ReadError.FilePath).Sublist paths := by
  intro paths
  induction paths with
  | nil => simp [readFilesLoop]
  | cons p rest ih =>
    cases hr : readSingleFile env st p with
    | error msg =>
      simp only [readFilesLoop, hr, List.nil_append]
      rw [readLoop_acc env st rest [] [ReadError.mk p msg]]
      simp only [List.map_append, List.map_cons, List.map_nil,
        List.singleton_append, List.cons_append, List.nil_append]
      exact ⟨List.Sublist.cons p ih.1, List.Sublist.cons₂ p ih.2⟩
    | ok fd =>
      have hname := readSingleFile_ok_name env st p fd hr
      simp only [readFilesLoop, hr, List.nil_append]
      rw [readLoop_acc env st rest [fd] []]
      simp only [List.map_append, List.map_cons, List.map_nil,
        List.singleton_append, List.cons_append, List.nil_append]
      rw [hname]
      exact ⟨List.Sublist.cons₂ p ih.1, List.Sublist.cons p ih.2⟩

/-! ### Claim theorems -/

/-- C1: for every list of write requests, `WriteFiles` returns a response
in which `|FilesWritten| + |Errors|` equals the length of the input list
and the paths across the two sequences are exactly the input paths (as a
permutation, so every input occurrence is accounted for exactly once);
and `ReadFiles` satisfies the analogous partition over its input paths. -/
theorem C1_batch_partition :
    ∀ (env : GCSEnv) (st : Store) (reqs : List WriteRequest)
      (paths : List String),
    (((WriteFiles env st reqs).2.1.FilesWritten.length
        + (WriteFiles env st reqs).2.1.Errors.length = reqs.length)
      ∧ List.Perm
          (((WriteFiles env st reqs).2.1.FilesWritten.map FileMetadata.Name)
            ++ ((WriteFiles env st reqs).2.1.Errors.map WriteError.FilePath))
          (reqs.map WriteRequest.Path))
    ∧ (((ReadFiles env st paths).1.Files.length
        + (ReadFiles env st paths).1.Errors.length = paths.length)
      ∧ List.Perm
          (((ReadFiles env st paths).1.Files.map
              (fun fd => fd.Metadata.Name))
            ++ ((ReadFiles env st paths).1.Errors.map ReadError.FilePath))
          paths) := by
  intro env st reqs paths
  have hw := write_partition env reqs st
  have hr := read_partition env st paths
  refine ⟨⟨?_, hw⟩, ⟨?_, hr⟩⟩
  · simpa using hw.length_eq
  · simpa using hr.length_eq

/-- C2: `WriteFiles` never fails as a whole — its own error return is
always `none` — and a per-item failure is recorded as a `WriteError` for
that item while processing continues with the remaining items (the
response for `req :: rest` is the response for `rest`, from the state the
failed item left, with the error of that item consed onto the error list). -/
theorem C2_write_never_aborts :
    (∀ (env : GCSEnv) (st : Store) (reqs : List WriteRequest),
      (WriteFiles env st reqs).2.2 = none)
    ∧ (∀ (env : GCSEnv) (st : Store) (req : WriteRequest)
        (rest : List WriteRequest) (e : WriteError),
        (writeOne env st req).2 = WriteOutcome.failure e →
        (WriteFiles env st (req :: rest)).2.1 =
          ⟨(WriteFiles env (writeOne env st req).1 rest).2.1.FilesWritten,
           e :: (WriteFiles env (writeOne env st req).1 rest).2.1.Errors⟩) := by
  constructor
  · intro env st reqs
    rfl
  · intro env st req rest e h
    rcases hw : writeOne env st req with ⟨st', out⟩
    rw [hw] at h
    cases out with
    | success m => cases h
    | failure e' =>
      injection h with h'
      subst h'
      simp only [WriteFiles, writeFilesLoop, hw, List.nil_append]
      rw [writeLoop_acc env rest st' [] [e']]
      simp

/-- Failure environment for the C2 witness: the copy of `a.txt` fails. -/
def envC2W : GCSEnv :=
  ⟨fun p => if p = "a.txt" then some "copy failed" else none,
   fun _ => none, fun _ => none, fun _ => none, fun _ => none, fun _ => ""⟩

/-- The empty bucket. -/
def stEmpty : Store := fun _ => none

/-- Write request used by the C2 witness. -/
def reqC2W : WriteRequest := ⟨"a.txt", [1, 2], "text/plain"⟩

/-- Witness for C2: a concrete failing copy is recorded as a `WriteError`
and the batch response is the remaining batch's response with that error
in front. -/
theorem C2_write_never_aborts_witness :
    (writeOne envC2W stEmpty reqC2W).2
        = WriteOutcome.failure ⟨"a.txt", "copy failed"⟩
    ∧ (WriteFiles envC2W stEmpty (reqC2W :: [])).2.1 =
      ⟨(WriteFiles envC2W (writeOne envC2W stEmpty reqC2W).1
          []).2.1.FilesWritten,
       WriteError.mk "a.txt" "copy failed" ::
        (WriteFiles envC2W (writeOne envC2W stEmpty reqC2W).1
          []).2.1.Errors⟩ :=
  ⟨by decide,
   C2_write_never_aborts.2 envC2W stEmpty reqC2W []
     ⟨"a.txt", "copy failed"⟩ (by decide)⟩

/-- C9: the success and error sequences of `WriteFiles` are each
subsequences of the input request order (by path), and likewise for
`ReadFiles` over the input path order. -/
theorem C9_result_order :
    ∀ (env : GCSEnv) (st : Store) (reqs : List WriteRequest)
      (paths : List String),
    ((WriteFiles env st reqs).2.1.FilesWritten.map
        FileMetadata.Name).Sublist (reqs.map WriteRequest.Path)
    ∧ ((WriteFiles env st reqs).2.1.Errors.map
        WriteError.FilePath).Sublist (reqs.map WriteRequest.Path)
    ∧ ((ReadFiles env st paths).1.Files.map
        (fun fd => fd.Metadata.Name)).Sublist paths
    ∧ ((ReadFiles env st paths).1.Errors.map
        ReadError.FilePath).Sublist paths := by
  intro env st reqs paths
  exact ⟨(write_sublists env reqs st).1, (write_sublists env reqs st).2,
    (read_sublists env st paths).1, (read_sublists env st paths).2⟩

/-- The content-type claim as stated: every write request with an empty
content type is written with the content type the static-table chain
(`detectContentType`: media table, then system registry, then
octet-stream) produces for its path. -/
def contentTypeClaim : Prop :=
  ∀ (env : GCSEnv) (req : WriteRequest), req.ContentType = "" →
    effectiveWriterContentType env req
      = detectContentType env.typeByExtension req.Path

/-- Environment with no injected failures whose registry is the built-in Go
MIME table. -/
def envBuiltin : GCSEnv :=
  ⟨fun _ => none, fun _ => none, fun _ => none, fun _ => none,
   fun _ => none, goBuiltinTypeByExtension⟩

/-- C3 counterexample: with the system registry being the built-in Go MIME
table, the orchestrator writes `a/b/photo.heim` (empty content type) with
content type `""` — bare `mime.TypeByExtension ".heim"` — not the static
table's `"image/heic"`: the static-table chain is not applied at the
write itself, only in the handler before the request is built. -/
theorem C3_counterexample : ¬ contentTypeClaim := fun h =>
  absurd (h envBuiltin ⟨"a/b/photo.heim", [], ""⟩ rfl) (by decide)

/-- C3 (amended): the static-table chain runs in the handler, not at the
write. (i) `detectContentType` resolves `a/b/photo.heim` to `image/heic`
under every system registry; (ii) a raw PUT upload with an empty
`Content-Type` header and a non-reserved path builds its `WriteRequest`
with `detectContentType` of the path; (iii) a write request that still
has an empty content type when it reaches the orchestrator is written
with the bare system registry value for its extension (no static
table, no octet-stream default). -/
theorem C3_content_type_amended :
    (∀ sysMime : String → String,
      detectContentType sysMime "a/b/photo.heim" = "image/heic")
    ∧ (∀ (sysMime : String → String) (urlPath : String) (body : List Nat),
        strStartsWith urlPath filesBasePath = true →
        ¬ (trimPrefixStr urlPath filesBasePath = ""
            ∨ trimPrefixStr urlPath filesBasePath = "read"
            ∨ trimPrefixStr urlPath filesBasePath = "raw") →
        writeFileRawAction Method.PUT urlPath "" body sysMime
          = HttpAction.callWriteFiles
              [⟨trimPrefixStr urlPath filesBasePath, body,
                detectContentType sysMime
                  (trimPrefixStr urlPath filesBasePath)⟩])
    ∧ (∀ (env : GCSEnv) (req : WriteRequest), req.ContentType = "" →
        effectiveWriterContentType env req
          = env.typeByExtension (getExtension req.Path)) := by
  refine ⟨?_, ?_, ?_⟩
  · intro sysMime
    rfl
  · intro sysMime urlPath body hpre hres
    push_neg at hres
    obtain ⟨hr1, hr2, hr3⟩ := hres
    simp [writeFileRawAction, hpre, hr1, hr2, hr3]
  · intro env req h
    simp [effectiveWriterContentType, h]

/-- Witness for the amended C3 at a concrete PUT: uploading `x.heim` with
no `Content-Type` header under the built-in Go registry produces one write
request whose content type resolves (through the static table) to
`image/heic`. -/
theorem C3_content_type_amended_witness :
    strStartsWith "/api/v1/storage/files/x.heim" filesBasePath = true
    ∧ ¬ (trimPrefixStr "/api/v1/storage/files/x.heim" filesBasePath = ""
        ∨ trimPrefixStr "/api/v1/storage/files/x.heim" filesBasePath = "read"
        ∨ trimPrefixStr "/api/v1/storage/files/x.heim" filesBasePath = "raw")
    ∧ writeFileRawAction Method.PUT "/api/v1/storage/files/x.heim" "" []
          goBuiltinTypeByExtension
        = HttpAction.callWriteFiles
            [⟨trimPrefixStr "/api/v1/storage/files/x.heim" filesBasePath, [],
              detectContentType goBuiltinTypeByExtension
                (trimPrefixStr "/api/v1/storage/files/x.heim"
                  filesBasePath)⟩] :=
  ⟨by decide, by decide,
   C3_content_type_amended.2.1 goBuiltinTypeByExtension
     "/api/v1/storage/files/x.heim" [] (by decide) (by decide)⟩

/-- C4: round-trip — writing content `C` to path `P` through `WriteFiles`
with no injected failures and then reading `P` back (via `ReadFile`, and
via `ReadFiles`) returns metadata whose size is `|C|` and content bytes
identical to `C`. -/
theorem C4_round_trip (env : GCSEnv) (st : Store) (P : String) (C : List Nat)
    (ct : String)
    (h1 : env.copyFail P = none) (h2 : env.closeFail P = none)
    (h3 : env.attrsFail P = none) (h4 : env.readerFail P = none)
    (h5 : env.readAllFail P = none) :
    ∃ fd : FileData,
      ReadFile env (WriteFiles env st [⟨P, C, ct⟩]).1 P = Except.ok fd
      ∧ fd.Metadata.Size = (C.length : Int)
      ∧ fd.Content = C
      ∧ (ReadFiles env (WriteFiles env st [⟨P, C, ct⟩]).1 [P]).1.Files
          = [fd] := by
  have hstore : (WriteFiles env st [⟨P, C, ct⟩]).1
      = fun q => if q = P then
          some (C, effectiveWriterContentType env ⟨P, C, ct⟩)
        else st q := by
    simp only [WriteFiles, writeFilesLoop, writeOne, objAttrs, h1, h2, h3]
    simp
  have hstoreP : (WriteFiles env st [⟨P, C, ct⟩]).1 P
      = some (C, effectiveWriterContentType env ⟨P, C, ct⟩) := by
    rw [hstore]
    simp
  have hread : readSingleFile env (WriteFiles env st [⟨P, C, ct⟩]).1 P
      = Except.ok ⟨⟨P, effectiveWriterContentType env ⟨P, C, ct⟩,
          (C.length : Int)⟩, C⟩ := by
    simp only [readSingleFile, objAttrs, h3, h4, h5, hstoreP, storedContent]
  refine ⟨⟨⟨P, effectiveWriterContentType env ⟨P, C, ct⟩,
      (C.length : Int)⟩, C⟩, hread, rfl, rfl, ?_⟩
  simp only [ReadFiles, readFilesLoop, hread]
  simp

/-- No-failure environment used by concrete witnesses. -/
def envNoFail : GCSEnv :=
  ⟨fun _ => none, fun _ => none, fun _ => none, fun _ => none,
   fun _ => none, fun _ => ""⟩

/-- Witness for C4: writing bytes `[7, 8, 9]` to `p.bin` into an empty
bucket and reading it back returns size 3 and the same bytes. -/
theorem C4_round_trip_witness :
    envNoFail.copyFail "p.bin" = none
    ∧ envNoFail.closeFail "p.bin" = none
    ∧ envNoFail.attrsFail "p.bin" = none
    ∧ envNoFail.readerFail "p.bin" = none
    ∧ envNoFail.readAllFail "p.bin" = none
    ∧ ∃ fd : FileData,
        ReadFile envNoFail (WriteFiles envNoFail stEmpty
            [⟨"p.bin", [7, 8, 9], "t"⟩]).1 "p.bin" = Except.ok fd
        ∧ fd.Metadata.Size = (([7, 8, 9] : List Nat).length : Int)
        ∧ fd.Content = [7, 8, 9]
        ∧ (ReadFiles envNoFail (WriteFiles envNoFail stEmpty
            [⟨"p.bin", [7, 8, 9], "t"⟩]).1 ["p.bin"]).1.Files = [fd] :=
  ⟨rfl, rfl, rfl, rfl, rfl,
   C4_round_trip envNoFail stEmpty "p.bin" [7, 8, 9] "t" rfl rfl rfl rfl rfl⟩

/-- C7: a fully successful write produces a `FileMetadata` whose name is
the request's path, whose content type is the one the attributes fetch on
the store the write produced returns, and whose size is the byte count
the copy transferred; it is the (only) entry appended to the success
list. -/
theorem C7_success_metadata (env : GCSEnv) (st : Store) (req : WriteRequest)
    (h1 : env.copyFail req.Path = none) (h2 : env.closeFail req.Path = none)
    (h3 : env.attrsFail req.Path = none) :
    ∃ m : FileMetadata,
      (writeOne env st req).2 = WriteOutcome.success m
      ∧ m.Name = req.Path
      ∧ m.Size = (req.Content.length : Int)
      ∧ (∃ sz : Int, objAttrs env (writeOne env st req).1 req.Path
          = Except.ok (m.ContentType, sz))
      ∧ (WriteFiles env st [req]).2.1.FilesWritten = [m] := by
  have hw : writeOne env st req
      = (fun q => if q = req.Path then
            some (req.Content, effectiveWriterContentType env req)
          else st q,
         WriteOutcome.success ⟨req.Path, effectiveWriterContentType env req,
           (req.Content.length : Int)⟩) := by
    simp only [writeOne, objAttrs, h1, h2, h3]
    simp
  refine ⟨⟨req.Path, effectiveWriterContentType env req,
      (req.Content.length : Int)⟩, ?_, rfl, rfl,
    ⟨(req.Content.length : Int), ?_⟩, ?_⟩
  · rw [hw]
  · rw [hw]
    simp [objAttrs, h3]
  · simp only [WriteFiles, writeFilesLoop, hw]
    simp

/-- Witness for C7: a fully successful concrete write of one byte to
`q.bin` yields the metadata `⟨q.bin, octet content type, 1⟩`. -/
theorem C7_success_metadata_witness :
    envNoFail.copyFail "q.bin" = none
    ∧ envNoFail.closeFail "q.bin" = none
    ∧ envNoFail.attrsFail "q.bin" = none
    ∧ ∃ m : FileMetadata,
        (writeOne envNoFail stEmpty ⟨"q.bin", [5], "ct"⟩).2
            = WriteOutcome.success m
        ∧ m.Name = WriteRequest.Path ⟨"q.bin", [5], "ct"⟩
        ∧ m.Size = ((WriteRequest.Content ⟨"q.bin", [5], "ct"⟩).length : Int)
        ∧ (∃ sz : Int, objAttrs envNoFail
            (writeOne envNoFail stEmpty ⟨"q.bin", [5], "ct"⟩).1 "q.bin"
            = Except.ok (m.ContentType, sz))
        ∧ (WriteFiles envNoFail stEmpty
            [⟨"q.bin", [5], "ct"⟩]).2.1.FilesWritten = [m] :=
  ⟨rfl, rfl, rfl,
   C7_success_metadata envNoFail stEmpty ⟨"q.bin", [5], "ct"⟩ rfl rfl rfl⟩

/-- C8: when the copy and the close succeed but the attributes fetch
fails, the item is recorded as a `WriteError` (and produces no
`FileMetadata`), even though the object is durably present in the store
the write produced. -/
theorem C8_attrs_failure_reported (env : GCSEnv) (st : Store)
    (req : WriteRequest) (msg : String)
    (h1 : env.copyFail req.Path = none) (h2 : env.closeFail req.Path = none)
    (h3 : env.attrsFail req.Path = some msg) :
    (writeOne env st req).2 = WriteOutcome.failure
        ⟨req.Path, "failed to get file attributes: " ++ msg⟩
    ∧ (writeOne env st req).1 req.Path
        = some (req.Content, effectiveWriterContentType env req)
    ∧ (WriteFiles env st [req]).2.1 =
        ⟨[], [⟨req.Path, "failed to get file attributes: " ++ msg⟩]⟩ := by
  have hw : writeOne env st req
      = (fun q => if q = req.Path then
            some (req.Content, effectiveWriterContentType env req)
          else st q,
         WriteOutcome.failure
           ⟨req.Path, "failed to get file attributes: " ++ msg⟩) := by
    simp only [writeOne, objAttrs, h1, h2, h3]
  refine ⟨?_, ?_, ?_⟩
  · rw [hw]
  · rw [hw]
    simp
  · simp only [WriteFiles, writeFilesLoop, hw]
    simp

/-- Environment for the C8 witness: the attributes fetch of `r.bin`
fails. -/
def envAttrsFailW : GCSEnv :=
  ⟨fun _ => none, fun _ => none,
   fun p => if p = "r.bin" then some "attrs down" else none,
   fun _ => none, fun _ => none, fun _ => ""⟩

/-- Witness for C8: a concrete write whose attributes fetch fails is
reported as an error while the object sits in the resulting store. -/
theorem C8_attrs_failure_reported_witness :
    envAttrsFailW.copyFail "r.bin" = none
    ∧ envAttrsFailW.closeFail "r.bin" = none
    ∧ envAttrsFailW.attrsFail "r.bin" = some "attrs down"
    ∧ (writeOne envAttrsFailW stEmpty ⟨"r.bin", [3], "ct"⟩).2
        = WriteOutcome.failure
            ⟨"r.bin", "failed to get file attributes: " ++ "attrs down"⟩
    ∧ (writeOne envAttrsFailW stEmpty ⟨"r.bin", [3], "ct"⟩).1 "r.bin"
        = some ([3],
            effectiveWriterContentType envAttrsFailW ⟨"r.bin", [3], "ct"⟩)
    ∧ (WriteFiles envAttrsFailW stEmpty [⟨"r.bin", [3], "ct"⟩]).2.1 =
        ⟨[], [⟨"r.bin", "failed to get file attributes: " ++ "attrs down"⟩]⟩ :=
  ⟨rfl, rfl, rfl,
   (C8_attrs_failure_reported envAttrsFailW stEmpty ⟨"r.bin", [3], "ct"⟩
      "attrs down" rfl rfl rfl).1,
   (C8_attrs_failure_reported envAttrsFailW stEmpty ⟨"r.bin", [3], "ct"⟩
      "attrs down" rfl rfl rfl).2.1,
   (C8_attrs_failure_reported envAttrsFailW stEmpty ⟨"r.bin", [3], "ct"⟩
      "attrs down" rfl rfl rfl).2.2⟩

/-- C5: a PUT under `/api/v1/storage/files/` whose path segment is empty
or one of the reserved keys `read`/`raw` is answered with a 4xx error and
never reaches the write path of the storage layer. -/
theorem C5_reserved_put_rejected (sysMime : String → String) (r : HttpReq)
    (hm : r.method = Method.PUT)
    (hu : r.urlPath = "/api/v1/storage/files/"
        ∨ r.urlPath = "/api/v1/storage/files/read"
        ∨ r.urlPath = "/api/v1/storage/files/raw") :
    (∃ s msg, muxDispatch sysMime r = HttpAction.respondError s msg
        ∧ 400 ≤ s ∧ s < 500)
    ∧ ∀ reqs, muxDispatch sysMime r ≠ HttpAction.callWriteFiles reqs := by
  rcases r with ⟨method, urlPath, cth, xfp, qp, body, jfp, mpf⟩
  simp only at hm hu
  subst hm
  rcases hu with h | h | h
  all_goals subst h
  · exact ⟨⟨400, "Invalid file path", rfl, by decide, by decide⟩,
      fun reqs h => nomatch h⟩
  · exact ⟨⟨405, "Method not allowed", rfl, by decide, by decide⟩,
      fun reqs h => nomatch h⟩
  · exact ⟨⟨405, "Method not allowed", rfl, by decide, by decide⟩,
      fun reqs h => nomatch h⟩

/-- Concrete request for the C5 witness: PUT to the reserved `read`
path. -/
def reqC5W : HttpReq :=
  ⟨Method.PUT, "/api/v1/storage/files/read", "", "", "", [],
   Except.ok ["x"], Except.ok []⟩

/-- Witness for C5: the concrete PUT to `/api/v1/storage/files/read` is
rejected with a 4xx and performs no write. -/
theorem C5_reserved_put_rejected_witness :
    reqC5W.method = Method.PUT
    ∧ (reqC5W.urlPath = "/api/v1/storage/files/"
        ∨ reqC5W.urlPath = "/api/v1/storage/files/read"
        ∨ reqC5W.urlPath = "/api/v1/storage/files/raw")
    ∧ ((∃ s msg, muxDispatch goBuiltinTypeByExtension reqC5W
          = HttpAction.respondError s msg ∧ 400 ≤ s ∧ s < 500)
      ∧ ∀ reqs, muxDispatch goBuiltinTypeByExtension reqC5W
          ≠ HttpAction.callWriteFiles reqs) :=
  ⟨rfl, Or.inr (Or.inl rfl),
   C5_reserved_put_rejected goBuiltinTypeByExtension reqC5W rfl
     (Or.inr (Or.inl rfl))⟩

/-- C6: a POST to `/api/v1/storage/files/read` whose decoded JSON body
has an empty `file_paths` list is answered 400 and never reaches the
storage layer. -/
theorem C6_empty_read_batch_rejected (sysMime : String → String)
    (r : HttpReq)
    (hm : r.method = Method.POST)
    (hu : r.urlPath = "/api/v1/storage/files/read")
    (hb : r.jsonFilePaths = Except.ok []) :
    muxDispatch sysMime r
        = HttpAction.respondError 400 "No file paths provided"
    ∧ ¬ (muxDispatch sysMime r).accessesStore := by
  rcases r with ⟨method, urlPath, cth, xfp, qp, body, jfp, mpf⟩
  simp only at hm hu hb
  subst hm
  subst hu
  subst hb
  exact ⟨rfl, fun h => h⟩

/-- Concrete request for the C6 witness: POST with an empty decoded
`file_paths` list. -/
def reqC6W : HttpReq :=
  ⟨Method.POST, "/api/v1/storage/files/read", "application/json", "", "",
   [], Except.ok [], Except.ok []⟩

/-- Witness for C6: the concrete empty read batch is answered 400 and
does not access the store. -/
theorem C6_empty_read_batch_rejected_witness :
    reqC6W.method = Method.POST
    ∧ reqC6W.urlPath = "/api/v1/storage/files/read"
    ∧ reqC6W.jsonFilePaths = Except.ok []
    ∧ (muxDispatch goBuiltinTypeByExtension reqC6W
        = HttpAction.respondError 400 "No file paths provided"
      ∧ ¬ (muxDispatch goBuiltinTypeByExtension reqC6W).accessesStore) :=
  ⟨rfl, rfl, rfl,
   C6_empty_read_batch_rejected goBuiltinTypeByExtension reqC6W rfl rfl rfl⟩

/-- C10: the `projectID` argument of `gcs.NewClient` does not influence
the constructed client — for every external `storage.NewClient` behavior,
bucket name and credentials value, two calls differing only in
`projectID` return identical results. -/
theorem C10_projectID_unused :
    ∀ (storageNewClient : List String → Except String Unit)
      (projectID1 projectID2 bucketName credentialsPath : String),
    NewClient storageNewClient projectID1 bucketName credentialsPath
      = NewClient storageNewClient projectID2 bucketName credentialsPath :=
  fun _ _ _ _ _ => rfl

end GcpProxy
